import Mathlib

/-!
Verification of the loan-schedule / rolling-reinvestment calculator.

The program computes, over exact rational arithmetic in this embedding:
* a single-loan amortization schedule (`generate_pmt_schedule`),
* a lender income view with running cumulative totals (`generate_lender_schedule`),
* a rolling-reinvestment portfolio simulation (`generate_rolling_loans_schedule`).

Python floats are modelled by `ℚ`; `round(x, 2)` is modelled by `round2`
(nearest multiple of 1/100; the model resolves exact half-way ties upward,
Python resolves them on the binary representation — no statement below
depends on a tie).  The 1e-8 floating-point cleanup threshold is `eps`.
-/

namespace RoiCalc

attribute [local semireducible] Rat.mul Rat.inv Rat.add Rat.sub

/-- The 1e-8 tolerance used for balance cleanup in the source. -/
def eps : ℚ := 1 / 100000000

/-- Model of Python `round(x, 2)`: round to the nearest multiple of 1/100. -/
def round2 (q : ℚ) : ℚ := ((round (q * 100) : ℤ) : ℚ) / 100

/-- One row of the borrower schedule, fields as in the source dict
(Period, Payment, Principal, Interest, Remaining Balance). -/
structure PmtEntry where
  period : ℕ
  payment : ℚ
  principal : ℚ
  interest : ℚ
  remainingBalance : ℚ
deriving DecidableEq, Repr

/-- The fixed payment computed at the top of `generate_pmt_schedule`
(source lines 3-8): `r = annual/ppy`; `principal/periods` when `r == 0`,
otherwise `principal*r / (1 - (1+r)**-periods)`. -/
def enginePmt (principal annual_interest_rate : ℚ) (periods periods_per_year : ℕ) : ℚ :=
  let r := annual_interest_rate / (periods_per_year : ℚ)
  if r = 0 then principal / (periods : ℚ)
  else (principal * r) / (1 - (1 + r) ^ (-(periods : ℤ)))

/-- The per-period balance update of the borrower loop, before the record is
emitted: `interest = balance*r`, `principal_payment = pmt - interest`,
`balance -= principal_payment`, then clamp to 0 when `|balance| < 1e-8`
(source lines 13-17). -/
def clampBalance (b : ℚ) : ℚ := if |b| < eps then 0 else b

/-- Pre-clamp then clamp: the balance carried into the next period. -/
def pmtNextBalance (r pmt balance : ℚ) : ℚ :=
  clampBalance (balance - (pmt - balance * r))

/-- The internally carried (unrounded) balance after `k` iterations of the
borrower loop starting from `principal`. -/
def pmtBalance (r pmt principal : ℚ) : ℕ → ℚ
  | 0 => principal
  | k + 1 => pmtNextBalance r pmt (pmtBalance r pmt principal k)

/-- The borrower loop of `generate_pmt_schedule` (source lines 12-25):
`count` remaining iterations, `period` the 1-based index of the next row.
Output fields are rounded to 2 decimals; the carried `balance` is not. -/
def pmtLoop (r pmt : ℚ) (balance : ℚ) (period : ℕ) : ℕ → List PmtEntry
  | 0 => []
  | count + 1 =>
    let interest := balance * r
    let principal_payment := pmt - interest
    let remaining_balance := balance - principal_payment
    let remaining_balance := if |remaining_balance| < eps then 0 else remaining_balance
    { period := period, payment := round2 pmt, principal := round2 principal_payment,
      interest := round2 interest, remainingBalance := round2 remaining_balance }
      :: pmtLoop r pmt remaining_balance (period + 1) count

/-- Model of `generate_pmt_schedule(principal, annual_interest_rate, periods,
periods_per_year)` of the source (lines 1-27). -/
def generate_pmt_schedule (principal annual_interest_rate : ℚ)
    (periods : ℕ) (periods_per_year : ℕ) : List PmtEntry :=
  let r := annual_interest_rate / (periods_per_year : ℚ)
  pmtLoop r (enginePmt principal annual_interest_rate periods periods_per_year) principal 1 periods

/-- The row the borrower loop emits at 0-based index `i`, expressed through the
unrounded balance recursion `pmtBalance`. -/
def pmtEntryAt (r pmt principal : ℚ) (i : ℕ) : PmtEntry :=
  let b := pmtBalance r pmt principal i
  { period := i + 1, payment := round2 pmt, principal := round2 (pmt - b * r),
    interest := round2 (b * r), remainingBalance := round2 (pmtNextBalance r pmt b) }

/-- Sum of the unrounded per-period principal portions `pmt - balance*r` over
the first `n` periods of the borrower loop (the schedule's rounded
`Principal` fields are the 2-decimal roundings of exactly these values). -/
def rawPrincipalSum (r pmt principal : ℚ) (n : ℕ) : ℚ :=
  ∑ k ∈ Finset.range n, (pmt - pmtBalance r pmt principal k * r)

/-- One row of the lender schedule (source lines 47-55). -/
structure LenderEntry where
  period : ℕ
  paymentReceived : ℚ
  interestIncome : ℚ
  principalRepaid : ℚ
  remainingPrincipal : ℚ
  ytdInterestIncome : ℚ
  ytdPaymentReceived : ℚ
deriving DecidableEq, Repr

/-- The lender loop of `generate_lender_schedule` (source lines 33-55): the
cumulative accumulators add the borrower rows' already-rounded `Interest`
and `Payment` fields. -/
def lenderLoop (cumulative_interest cumulative_payment : ℚ) :
    List PmtEntry → List LenderEntry
  | [] => []
  | e :: rest =>
    let cumulative_interest := cumulative_interest + e.interest
    let cumulative_payment := cumulative_payment + e.payment
    { period := e.period, paymentReceived := round2 e.payment,
      interestIncome := round2 e.interest, principalRepaid := round2 e.principal,
      remainingPrincipal := round2 e.remainingBalance,
      ytdInterestIncome := round2 cumulative_interest,
      ytdPaymentReceived := round2 cumulative_payment }
      :: lenderLoop cumulative_interest cumulative_payment rest

/-- Model of `generate_lender_schedule` of the source (lines 30-57). -/
def generate_lender_schedule (principal annual_interest_rate : ℚ)
    (periods : ℕ) (periods_per_year : ℕ) : List LenderEntry :=
  lenderLoop 0 0 (generate_pmt_schedule principal annual_interest_rate periods periods_per_year)

/-- One loan of the rolling simulation: the dict
`{'start_period': ..., 'remaining_balance': ...}` of the source. -/
structure Loan where
  start_period : ℕ
  remaining_balance : ℚ
deriving DecidableEq, Repr

/-- The age `loan_age = period - loan['start_period'] + 1` (source line 99), over ℤ as
Python subtraction of ints can go negative. -/
def loanAge (period : ℕ) (loan : Loan) : ℤ :=
  (period : ℤ) - (loan.start_period : ℤ) + 1

/-- Outcome of servicing one loan for one period: the updated loan and its
payment / interest / principal contribution to the period totals. -/
structure ServiceResult where
  loan : Loan
  pmt : ℚ
  interest : ℚ
  principal_payment : ℚ
deriving DecidableEq, Repr

/-- The body of the per-loan servicing loop (source lines 98-114).  A loan is
serviced when its balance is positive and its age is positive; the tentative
principal portion `pmt_single - interest` is clamped to the remaining balance
(recomputing the payment as `principal_payment + interest`) when it exceeds
it; skipped loans contribute zeroes and are left unchanged. -/
def serviceLoan (r pmt_single : ℚ) (period : ℕ) (loan : Loan) : ServiceResult :=
  if 0 < loan.remaining_balance ∧ 0 < loanAge period loan then
    let interest := loan.remaining_balance * r
    let principal_payment := pmt_single - interest
    if loan.remaining_balance < principal_payment then
      let principal_payment := loan.remaining_balance
      let pmt := principal_payment + interest
      { loan := { loan with remaining_balance := loan.remaining_balance - principal_payment },
        pmt := pmt, interest := interest, principal_payment := principal_payment }
    else
      { loan := { loan with remaining_balance := loan.remaining_balance - principal_payment },
        pmt := pmt_single, interest := interest, principal_payment := principal_payment }
  else
    { loan := loan, pmt := 0, interest := 0, principal_payment := 0 }

/-- A loan lands in `loans_fully_paid` (source lines 116-117) when it was
serviced this period and its post-servicing balance is at most `1e-8`. -/
def fullyPaid (r pmt_single : ℚ) (period : ℕ) (loan : Loan) : Bool :=
  decide (0 < loan.remaining_balance ∧ 0 < loanAge period loan) &&
  decide ((serviceLoan r pmt_single period loan).loan.remaining_balance ≤ eps)

/-- Aggregate outcome of one period's servicing pass over the active loans:
the surviving loans (fully paid ones removed, source lines 119-120) and the
period totals. -/
structure PeriodTotals where
  survivors : List Loan
  period_payment : ℚ
  period_interest : ℚ
  period_principal : ℚ
deriving DecidableEq, Repr

/-- The servicing pass over `active_loans` (source lines 93-120).  The source
mutates the list in place and removes the fully-paid loans after the loop;
over exact rationals the accumulated totals do not depend on the traversal
order, so the pass is written as a structural recursion that keeps the
survivors in their original order. -/
def servicePeriod (r pmt_single : ℚ) (period : ℕ) : List Loan → PeriodTotals
  | [] => { survivors := [], period_payment := 0, period_interest := 0, period_principal := 0 }
  | loan :: rest =>
    let res := serviceLoan r pmt_single period loan
    let t := servicePeriod r pmt_single period rest
    { survivors := (if fullyPaid r pmt_single period loan then [] else [res.loan]) ++ t.survivors,
      period_payment := res.pmt + t.period_payment,
      period_interest := res.interest + t.period_interest,
      period_principal := res.principal_payment + t.period_principal }

/-- The default issuance policy installed when the caller passes no
`should_issue_loan` (source lines 85-90): always issue when no `max_loans`
cap is configured, otherwise issue exactly while `total_issued < max_loans`. -/
def defaultShouldIssue (max_loans : Option ℕ)
    (period total_issued active_count : ℕ) : Bool :=
  match max_loans with
  | none => true
  | some m => decide (total_issued < m)

/-- The issuance while-loop (source lines 126-132), written with explicit
fuel: while the accumulator holds at least one `principal`, the policy is
consulted afresh; on permission a loan `⟨period, principal⟩` is appended,
the counter incremented, `principal` subtracted, and the loop repeats; a
decline halts issuance for the period.  For `0 < principal` the source loop
performs at most `⌊ytd/principal⌋` issuances, so the fuel chosen in
`issueLoopRun` is never exhausted (proved in `issueLoop_spec_of_fuel`); the
fuel-free meaning of the source loop, including its non-terminating runs for
a non-positive `principal`, is `IssueLoopTerm` below. -/
def issueLoop (principal : ℚ) (should_issue_loan : ℕ → ℕ → ℕ → Bool) (period : ℕ) :
    ℕ → List Loan → ℕ → ℚ → List Loan × ℕ × ℚ
  | 0, loans, issued, ytd => (loans, issued, ytd)
  | fuel + 1, loans, issued, ytd =>
    if principal ≤ ytd then
      if should_issue_loan period issued loans.length then
        issueLoop principal should_issue_loan period fuel
          (loans ++ [{ start_period := period, remaining_balance := principal }])
          (issued + 1) (ytd - principal)
      else (loans, issued, ytd)
    else (loans, issued, ytd)

/-- Fuel that upper-bounds the number of iterations of the issuance loop for
a positive `principal`. -/
def issueFuel (principal ytd : ℚ) : ℕ := (⌊ytd / principal⌋).toNat + 1

/-- The issuance loop as run by the simulator each period.  For
`0 < principal` this computes exactly a terminating run of the source's
unbounded while-loop (`issueLoopRun_terminates`, with uniqueness from
`issueLoopTerm_det`); for `principal ≤ 0` under a never-declining policy the
source loop has no result at all (`issueLoop_no_result_of_nonpos`), so the
fuel-truncated value does not then correspond to any Python result. -/
def issueLoopRun (principal : ℚ) (should_issue_loan : ℕ → ℕ → ℕ → Bool) (period : ℕ)
    (loans : List Loan) (issued : ℕ) (ytd : ℚ) : List Loan × ℕ × ℚ :=
  issueLoop principal should_issue_loan period (issueFuel principal ytd) loans issued ytd

/-- Fuel-free big-step semantics of the source's issuance while-loop (lines
126-132): `IssueLoopTerm principal pol period loans issued ytd res` holds
exactly when the unbounded loop, started at `(loans, issued, ytd)`,
terminates with result `res`.  A state from which no derivation exists is a
state on which the Python loop runs forever. -/
inductive IssueLoopTerm (principal : ℚ) (should_issue_loan : ℕ → ℕ → ℕ → Bool)
    (period : ℕ) : List Loan → ℕ → ℚ → List Loan × ℕ × ℚ → Prop where
  | stop_low : ∀ (loans : List Loan) (issued : ℕ) (ytd : ℚ), ¬ principal ≤ ytd →
      IssueLoopTerm principal should_issue_loan period loans issued ytd (loans, issued, ytd)
  | stop_decline : ∀ (loans : List Loan) (issued : ℕ) (ytd : ℚ), principal ≤ ytd →
      should_issue_loan period issued loans.length = false →
      IssueLoopTerm principal should_issue_loan period loans issued ytd (loans, issued, ytd)
  | step : ∀ (loans : List Loan) (issued : ℕ) (ytd : ℚ) (res : List Loan × ℕ × ℚ),
      principal ≤ ytd →
      should_issue_loan period issued loans.length = true →
      IssueLoopTerm principal should_issue_loan period
        (loans ++ [{ start_period := period, remaining_balance := principal }])
        (issued + 1) (ytd - principal) res →
      IssueLoopTerm principal should_issue_loan period loans issued ytd res

/-- The simulator's mutable state between periods (source lines 77-83). -/
structure RollState where
  active_loans : List Loan
  total_loans_issued : ℕ
  cumulative_payment_received : ℚ
  cumulative_interest_earned : ℚ
  ytd_payment_received : ℚ
deriving DecidableEq, Repr

/-- One row of the rolling schedule (source lines 134-144). -/
structure RollingEntry where
  period : ℕ
  paymentReceived : ℚ
  interestIncome : ℚ
  principalRepaid : ℚ
  remainingPrincipalAll : ℚ
  ytdInterestIncome : ℚ
  ytdPaymentReceived : ℚ
  activeLoansCount : ℕ
  totalLoansIssued : ℕ
deriving DecidableEq, Repr

/-- Initial state: one seed loan with `start_period = 1` and balance
`principal`, `total_loans_issued = 1`, all accumulators zero. -/
def initRollState (principal : ℚ) : RollState :=
  { active_loans := [{ start_period := 1, remaining_balance := principal }]
    total_loans_issued := 1
    cumulative_payment_received := 0
    cumulative_interest_earned := 0
    ytd_payment_received := 0 }

/-- One iteration of the outer period loop (source lines 92-144): service the
active loans, remove the fully paid ones, add the period totals to the
accumulators, run the issuance loop, and emit the period record. -/
def rollStep (r pmt_single principal : ℚ) (should_issue_loan : ℕ → ℕ → ℕ → Bool)
    (period : ℕ) (st : RollState) : RollState × RollingEntry :=
  let t := servicePeriod r pmt_single period st.active_loans
  let cumulative_payment_received := st.cumulative_payment_received + t.period_payment
  let cumulative_interest_earned := st.cumulative_interest_earned + t.period_interest
  let ytd0 := st.ytd_payment_received + t.period_payment
  let issued := issueLoopRun principal should_issue_loan period t.survivors st.total_loans_issued ytd0
  let active_loans := issued.1
  let total_loans_issued := issued.2.1
  let ytd_payment_received := issued.2.2
  ({ active_loans := active_loans, total_loans_issued := total_loans_issued,
     cumulative_payment_received := cumulative_payment_received,
     cumulative_interest_earned := cumulative_interest_earned,
     ytd_payment_received := ytd_payment_received },
   { period := period, paymentReceived := round2 t.period_payment,
     interestIncome := round2 t.period_interest,
     principalRepaid := round2 t.period_principal,
     remainingPrincipalAll := round2 ((active_loans.map Loan.remaining_balance).sum),
     ytdInterestIncome := round2 cumulative_interest_earned,
     ytdPaymentReceived := round2 cumulative_payment_received,
     activeLoansCount := active_loans.length,
     totalLoansIssued := total_loans_issued })

/-- Simulator state after `k` period advances. -/
def rollStateAfter (r pmt_single principal : ℚ)
    (should_issue_loan : ℕ → ℕ → ℕ → Bool) : ℕ → RollState
  | 0 => initRollState principal
  | k + 1 =>
    (rollStep r pmt_single principal should_issue_loan (k + 1)
      (rollStateAfter r pmt_single principal should_issue_loan k)).1

/-- The record emitted for period `k + 1`. -/
def rollEntryAt (r pmt_single principal : ℚ)
    (should_issue_loan : ℕ → ℕ → ℕ → Bool) (k : ℕ) : RollingEntry :=
  (rollStep r pmt_single principal should_issue_loan (k + 1)
    (rollStateAfter r pmt_single principal should_issue_loan k)).2

/-- The unrounded totals of period `k + 1` (what the source accumulates into
`period_payment` / `period_interest` / `period_principal`). -/
def periodTotalsAt (r pmt_single principal : ℚ)
    (should_issue_loan : ℕ → ℕ → ℕ → Bool) (k : ℕ) : PeriodTotals :=
  servicePeriod r pmt_single (k + 1)
    (rollStateAfter r pmt_single principal should_issue_loan k).active_loans

/-- The per-loan fixed payment computed at the top of
`generate_rolling_loans_schedule` (source lines 70-75); textually the same
formula as `enginePmt`. -/
def rollingPmtSingle (principal annual_interest_rate : ℚ)
    (total_periods periods_per_year : ℕ) : ℚ :=
  let r := annual_interest_rate / (periods_per_year : ℚ)
  if r = 0 then principal / (total_periods : ℚ)
  else (principal * r) / (1 - (1 + r) ^ (-(total_periods : ℤ)))

/-- Model of `generate_rolling_loans_schedule` of the source (lines 62-146). -/
def generate_rolling_loans_schedule (principal annual_interest_rate : ℚ)
    (total_periods : ℕ) (periods_per_year : ℕ)
    (max_loans : Option ℕ) (should_issue_loan : Option (ℕ → ℕ → ℕ → Bool)) :
    List RollingEntry :=
  let r := annual_interest_rate / (periods_per_year : ℚ)
  let pmt_single := rollingPmtSingle principal annual_interest_rate total_periods periods_per_year
  let pol := should_issue_loan.getD (defaultShouldIssue max_loans)
  (List.range total_periods).map (rollEntryAt r pmt_single principal pol)

/-- The only exception the source can raise: Python's `ZeroDivisionError`.
Non-termination of the issuance loop is not an exception and is modelled
separately through `IssueLoopTerm`. -/
inductive PyError where
  | zeroDivisionError
deriving DecidableEq, Repr

/-- Whether the payment computation at the top of either schedule generator
raises `ZeroDivisionError` in Python: division by `periods_per_year = 0`
computing `r`; `principal / periods` with `periods = 0` when `r == 0`;
`(1+r) ** -periods` with `1+r == 0` and a negative exponent; or the annuity
denominator `1 - (1+r)**-periods` being zero (in particular `periods = 0`). -/
def pmtDivisionFails (principal annual_interest_rate : ℚ)
    (periods periods_per_year : ℕ) : Bool :=
  if (periods_per_year : ℚ) = 0 then true
  else
    let r := annual_interest_rate / (periods_per_year : ℚ)
    if r = 0 then decide ((periods : ℚ) = 0)
    else decide (1 + r = 0 ∧ 0 < periods) ||
         decide (1 - (1 + r) ^ (-(periods : ℤ)) = 0)

/-- Variant of `generate_pmt_schedule` with Python's raising behaviour made explicit:
the function has no validation of its own, the only failure is the
division-by-zero in the payment formula. -/
def generate_pmt_scheduleE (principal annual_interest_rate : ℚ)
    (periods periods_per_year : ℕ) : Except PyError (List PmtEntry) :=
  if pmtDivisionFails principal annual_interest_rate periods periods_per_year then
    .error .zeroDivisionError
  else
    .ok (generate_pmt_schedule principal annual_interest_rate periods periods_per_year)

/-- Variant of `generate_rolling_loans_schedule` with Python's raising
behaviour made explicit: the only exception it can raise is the
division-by-zero in the payment formula — the function never inspects the
sign of `principal` or of the rate.  The `.ok` branch reflects the source
only where every period's issuance loop terminates, which holds whenever
`0 < principal` (`issueLoopRun_terminates`); for a non-positive `principal`
under a never-declining policy the source's while-loop runs forever instead
of returning (`issueLoop_no_result_of_nonpos`), a behaviour this
`Except`-valued model cannot represent — no theorem below asserts anything
about the `.ok` branch in that region. -/
def generate_rolling_loans_scheduleE (principal annual_interest_rate : ℚ)
    (total_periods periods_per_year : ℕ)
    (max_loans : Option ℕ) (should_issue_loan : Option (ℕ → ℕ → ℕ → Bool)) :
    Except PyError (List RollingEntry) :=
  if pmtDivisionFails principal annual_interest_rate total_periods periods_per_year then
    .error .zeroDivisionError
  else
    .ok (generate_rolling_loans_schedule principal annual_interest_rate
          total_periods periods_per_year max_loans should_issue_loan)

/-- Whether an `Except` result is a success. -/
def resultIsOk {α : Type} (e : Except PyError α) : Bool :=
  match e with
  | .ok _ => true
  | .error _ => false

/-- Characterisation of one run of the issuance loop: some number `k` of
loans `⟨period, principal⟩` were appended in order, the counter rose by `k`,
`k · principal` left the accumulator, the policy was consulted afresh (with
the then-current totals) and answered `true` at each of the `k` issuances,
and the loop stopped either because the accumulator dropped below
`principal` or because the policy declined at the final consultation. -/
def issueLoopSpec (principal : ℚ) (should_issue_loan : ℕ → ℕ → ℕ → Bool) (period : ℕ)
    (loans : List Loan) (issued : ℕ) (ytd : ℚ) (res : List Loan × ℕ × ℚ) : Prop :=
  ∃ k : ℕ,
    res.1 = loans ++ List.replicate k { start_period := period, remaining_balance := principal } ∧
    res.2.1 = issued + k ∧
    res.2.2 = ytd - (k : ℚ) * principal ∧
    (∀ j < k, principal ≤ ytd - (j : ℚ) * principal ∧
       should_issue_loan period (issued + j) (loans.length + j) = true) ∧
    (res.2.2 < principal ∨ should_issue_loan period res.2.1 res.1.length = false)

/-- The claim that every loan makes its first payment in the period equal to
its `start_period`: by the end of that period, a just-issued loan would then
no longer carry its untouched face principal. -/
def firstPaymentAtStartClaim (principal annual_interest_rate : ℚ)
    (total_periods periods_per_year : ℕ)
    (max_loans : Option ℕ) (should_issue_loan : Option (ℕ → ℕ → ℕ → Bool)) : Prop :=
  ∀ k < total_periods + 1,
    ∀ l ∈ (rollStateAfter (annual_interest_rate / (periods_per_year : ℚ))
        (rollingPmtSingle principal annual_interest_rate total_periods periods_per_year)
        principal (should_issue_loan.getD (defaultShouldIssue max_loans)) k).active_loans,
      l.start_period = k → l.remaining_balance ≠ principal

/-! ### Helper lemmas about the borrower loop -/

lemma pmtLoop_length (r pmt : ℚ) :
    ∀ (count : ℕ) (b : ℚ) (period : ℕ), (pmtLoop r pmt b period count).length = count := by
  intro count
  induction count with
  | zero => intro b period; rfl
  | succ c ih => intro b period; simp [pmtLoop, ih]

lemma pmtBalance_shift (r pmt b : ℚ) :
    ∀ k, pmtBalance r pmt (pmtNextBalance r pmt b) k = pmtBalance r pmt b (k + 1) := by
  intro k
  induction k with
  | zero => rfl
  | succ j ih => simp [pmtBalance, ih]

lemma pmtLoop_succ (r pmt b : ℚ) (period c : ℕ) :
    pmtLoop r pmt b period (c + 1) =
      { period := period, payment := round2 pmt, principal := round2 (pmt - b * r),
        interest := round2 (b * r), remainingBalance := round2 (pmtNextBalance r pmt b) }
        :: pmtLoop r pmt (pmtNextBalance r pmt b) (period + 1) c := by
  simp [pmtLoop, pmtNextBalance, clampBalance]

lemma pmtLoop_getElem (r pmt : ℚ) :
    ∀ (count : ℕ) (b : ℚ) (period i : ℕ), i < count →
      (pmtLoop r pmt b period count)[i]? =
        some { period := period + i, payment := round2 pmt,
               principal := round2 (pmt - pmtBalance r pmt b i * r),
               interest := round2 (pmtBalance r pmt b i * r),
               remainingBalance := round2 (pmtNextBalance r pmt (pmtBalance r pmt b i)) } := by
  intro count
  induction count with
  | zero => intro b period i hi; exact absurd hi (Nat.not_lt_zero i)
  | succ c ih =>
    intro b period i hi
    rw [pmtLoop_succ]
    cases i with
    | zero =>
      simp [pmtBalance]
    | succ j =>
      rw [List.getElem?_cons_succ, ih (pmtNextBalance r pmt b) (period + 1) j
        (Nat.lt_of_succ_lt_succ hi), pmtBalance_shift]
      have : period + 1 + j = period + (j + 1) := by omega
      rw [this]

/-! ### Helper lemmas about the servicing pass -/

lemma servicePeriod_payment_sum (r pmt_single : ℚ) (period : ℕ) :
    ∀ loans : List Loan,
      (servicePeriod r pmt_single period loans).period_payment
        = (loans.map fun l => (serviceLoan r pmt_single period l).pmt).sum := by
  intro loans
  induction loans with
  | nil => rfl
  | cons a t ih => simp [servicePeriod, ih]

lemma servicePeriod_interest_sum (r pmt_single : ℚ) (period : ℕ) :
    ∀ loans : List Loan,
      (servicePeriod r pmt_single period loans).period_interest
        = (loans.map fun l => (serviceLoan r pmt_single period l).interest).sum := by
  intro loans
  induction loans with
  | nil => rfl
  | cons a t ih => simp [servicePeriod, ih]

lemma servicePeriod_principal_sum (r pmt_single : ℚ) (period : ℕ) :
    ∀ loans : List Loan,
      (servicePeriod r pmt_single period loans).period_principal
        = (loans.map fun l => (serviceLoan r pmt_single period l).principal_payment).sum := by
  intro loans
  induction loans with
  | nil => rfl
  | cons a t ih => simp [servicePeriod, ih]

/-! ### Claim theorems -/

/-- C4: for principal > 0, periodic rate r ≥ 0 and n ≥ 1 periods, the fixed
payment computed by the amortization engine — and the rolling simulator's
`pmt_single`, computed by the same formula — equals `principal / n` when
`r = 0` and `principal * r / (1 - (1+r)^-n)` when `r > 0`. -/
theorem C4_fixed_payment_formula (principal annual : ℚ) (n ppy : ℕ)
    (hP : 0 < principal) (hr : 0 ≤ annual / (ppy : ℚ)) (hn : 1 ≤ n) :
    (annual / (ppy : ℚ) = 0 →
        enginePmt principal annual n ppy = principal / (n : ℚ) ∧
        rollingPmtSingle principal annual n ppy = principal / (n : ℚ)) ∧
    (0 < annual / (ppy : ℚ) →
        enginePmt principal annual n ppy
          = principal * (annual / (ppy : ℚ)) /
              (1 - (1 + annual / (ppy : ℚ)) ^ (-(n : ℤ))) ∧
        rollingPmtSingle principal annual n ppy
          = principal * (annual / (ppy : ℚ)) /
              (1 - (1 + annual / (ppy : ℚ)) ^ (-(n : ℤ)))) := by
  constructor
  · intro h0
    simp [enginePmt, rollingPmtSingle, h0]
  · intro hpos
    simp [enginePmt, rollingPmtSingle, ne_of_gt hpos]

/-- Witness for C4 at principal 1000, annual rate 1.2, 2 periods, monthly. -/
theorem C4_fixed_payment_formula_witness :
    0 < (1000 : ℚ) ∧ 0 ≤ (12/10 : ℚ) / ((12 : ℕ) : ℚ) ∧ 1 ≤ 2 ∧
    (0 < (12/10 : ℚ) / ((12 : ℕ) : ℚ) →
        enginePmt 1000 (12/10) 2 12
          = 1000 * ((12/10 : ℚ) / ((12 : ℕ) : ℚ)) /
              (1 - (1 + (12/10 : ℚ) / ((12 : ℕ) : ℚ)) ^ (-((2 : ℕ) : ℤ))) ∧
        rollingPmtSingle 1000 (12/10) 2 12
          = 1000 * ((12/10 : ℚ) / ((12 : ℕ) : ℚ)) /
              (1 - (1 + (12/10 : ℚ) / ((12 : ℕ) : ℚ)) ^ (-((2 : ℕ) : ℤ)))) :=
  ⟨by norm_num, by norm_num, by norm_num,
   (C4_fixed_payment_formula 1000 (12/10) 2 12 (by norm_num) (by norm_num) (by norm_num)).2⟩

/-- C5: for every valid input the single-loan generator returns exactly
`total_periods` records with period indices 1..n in order; record `i` holds
the 2-decimal roundings of the payment, of `interest = balance * r`, of
`principal = payment - interest`, and of the balance after subtracting the
principal portion and applying the every-period `1e-8` clamp — while the
internally carried balance (`pmtBalance`) stays unrounded. -/
theorem C5_schedule_shape (principal annual : ℚ) (n ppy : ℕ) (hn : 1 ≤ n) :
    (generate_pmt_schedule principal annual n ppy).length = n ∧
    ∀ i < n, (generate_pmt_schedule principal annual n ppy)[i]? =
      some (pmtEntryAt (annual / (ppy : ℚ)) (enginePmt principal annual n ppy) principal i) := by
  constructor
  · simp [generate_pmt_schedule, pmtLoop_length]
  · intro i hi
    have h := pmtLoop_getElem (annual / (ppy : ℚ)) (enginePmt principal annual n ppy)
      n principal 1 i hi
    simp only [generate_pmt_schedule]
    rw [h, pmtEntryAt]
    have : 1 + i = i + 1 := Nat.add_comm 1 i
    rw [this]

/-- Witness for C5 at principal 100, rate 0, 2 periods, monthly. -/
theorem C5_schedule_shape_witness :
    1 ≤ 2 ∧
    ((generate_pmt_schedule 100 0 2 12).length = 2 ∧
     ∀ i < 2, (generate_pmt_schedule 100 0 2 12)[i]? =
       some (pmtEntryAt ((0 : ℚ) / ((12 : ℕ) : ℚ)) (enginePmt 100 0 2 12) 100 i)) :=
  ⟨by norm_num, C5_schedule_shape 100 0 2 12 (by norm_num)⟩

/-- C1: in the per-period advance, a loan with positive balance and positive
age pays `interest = balance * r`; the tentative principal portion
`pmt_single - interest` is clamped to the remaining balance — with the
payment recomputed as `principal + interest` — exactly when it exceeds the
balance, otherwise the payment is the fixed payment; the balance is reduced
by the principal portion; and the period totals are the sums of the per-loan
payments, interests and principal portions. -/
theorem C1_per_loan_service (r pmt_single : ℚ) (period : ℕ) (loan : Loan)
    (loans : List Loan)
    (h1 : 0 < loan.remaining_balance) (h2 : 0 < loanAge period loan) :
    (serviceLoan r pmt_single period loan).interest = loan.remaining_balance * r ∧
    (loan.remaining_balance < pmt_single - loan.remaining_balance * r →
       (serviceLoan r pmt_single period loan).principal_payment = loan.remaining_balance ∧
       (serviceLoan r pmt_single period loan).pmt
         = loan.remaining_balance + loan.remaining_balance * r) ∧
    (¬ loan.remaining_balance < pmt_single - loan.remaining_balance * r →
       (serviceLoan r pmt_single period loan).principal_payment
         = pmt_single - loan.remaining_balance * r ∧
       (serviceLoan r pmt_single period loan).pmt = pmt_single) ∧
    (serviceLoan r pmt_single period loan).loan.remaining_balance
      = loan.remaining_balance - (serviceLoan r pmt_single period loan).principal_payment ∧
    (servicePeriod r pmt_single period loans).period_payment
      = (loans.map fun l => (serviceLoan r pmt_single period l).pmt).sum ∧
    (servicePeriod r pmt_single period loans).period_interest
      = (loans.map fun l => (serviceLoan r pmt_single period l).interest).sum ∧
    (servicePeriod r pmt_single period loans).period_principal
      = (loans.map fun l => (serviceLoan r pmt_single period l).principal_payment).sum := by
  have hcond : 0 < loan.remaining_balance ∧ 0 < loanAge period loan := ⟨h1, h2⟩
  refine ⟨?_, ?_, ?_, ?_, servicePeriod_payment_sum r pmt_single period loans,
    servicePeriod_interest_sum r pmt_single period loans,
    servicePeriod_principal_sum r pmt_single period loans⟩
  · simp only [serviceLoan, if_pos hcond]
    split <;> rfl
  · intro hc
    simp [serviceLoan, hcond, hc]
  · intro hc
    simp [serviceLoan, hcond, hc]
  · simp only [serviceLoan, if_pos hcond]
    split <;> rfl

/-- Witness for C1 at loan ⟨1, 100⟩, r = 1/10, payment 50, period 1. -/
theorem C1_per_loan_service_witness :
    0 < ({ start_period := 1, remaining_balance := 100 } : Loan).remaining_balance ∧
    0 < loanAge 1 { start_period := 1, remaining_balance := 100 } ∧
    (serviceLoan (1/10) 50 1 { start_period := 1, remaining_balance := 100 }).interest
      = ({ start_period := 1, remaining_balance := 100 } : Loan).remaining_balance * (1/10) :=
  ⟨by norm_num, by decide,
   (C1_per_loan_service (1/10) 50 1 { start_period := 1, remaining_balance := 100 } []
     (by norm_num) (by decide)).1⟩

/-- C10: in the lender view, the YTD fields of record `k` are the 2-decimal
rounding of the sum of the first `k+1` borrower records' already-rounded
per-period `Interest` (resp. `Payment`) fields — the accumulators run over
the rounded display values, not over unrounded internal figures. -/
theorem C10_ytd_from_rounded (principal annual : ℚ) (n ppy : ℕ) (k : ℕ) (e : LenderEntry)
    (h : (generate_lender_schedule principal annual n ppy)[k]? = some e) :
    e.ytdInterestIncome
      = round2 ((((generate_pmt_schedule principal annual n ppy).take (k+1)).map
          PmtEntry.interest).sum) ∧
    e.ytdPaymentReceived
      = round2 ((((generate_pmt_schedule principal annual n ppy).take (k+1)).map
          PmtEntry.payment).sum) := by
  have hgen : ∀ (l : List PmtEntry) (ci cp : ℚ) (j : ℕ) (x : LenderEntry),
      (lenderLoop ci cp l)[j]? = some x →
      x.ytdInterestIncome = round2 (ci + ((l.take (j+1)).map PmtEntry.interest).sum) ∧
      x.ytdPaymentReceived = round2 (cp + ((l.take (j+1)).map PmtEntry.payment).sum) := by
    intro l
    induction l with
    | nil => intro ci cp j x hx; simp [lenderLoop] at hx
    | cons a t ih =>
      intro ci cp j x hx
      cases j with
      | zero =>
        simp only [lenderLoop, List.getElem?_cons_zero, Option.some_inj] at hx
        subst hx
        simp
      | succ j =>
        simp only [lenderLoop, List.getElem?_cons_succ] at hx
        have := ih (ci + a.interest) (cp + a.payment) j x hx
        simpa [List.take_succ_cons, add_assoc] using this
  have := hgen (generate_pmt_schedule principal annual n ppy) 0 0 k e h
  simpa using this

/-- Witness for C10 at principal 100, rate 0, 2 periods, monthly, record 1. -/
theorem C10_ytd_from_rounded_witness :
    (generate_lender_schedule 100 0 2 12)[1]? =
      some { period := 2, paymentReceived := 50, interestIncome := 0,
             principalRepaid := 50, remainingPrincipal := 0,
             ytdInterestIncome := 0, ytdPaymentReceived := 100 } ∧
    ({ period := 2, paymentReceived := 50, interestIncome := 0,
       principalRepaid := 50, remainingPrincipal := 0,
       ytdInterestIncome := 0, ytdPaymentReceived := 100 } : LenderEntry).ytdPaymentReceived
      = round2 ((((generate_pmt_schedule 100 0 2 12).take 2).map PmtEntry.payment).sum) :=
  ⟨by decide,
   (C10_ytd_from_rounded 100 0 2 12 1 _ (by decide)).2⟩

/-- C8 counterexample: at principal 0.01, annual rate 1.2 (periodic rate 0.1),
3 periods, the schedule's `Principal` fields — which are rounded to 2
decimals — are all 0.00, so their sum misses the principal by 0.01, far
beyond the claimed 1e-6 tolerance. -/
theorem C8_counterexample :
    ¬ |(((generate_pmt_schedule (1/100) (12/10) 3 12).map PmtEntry.principal).sum) - 1/100|
        ≤ 1/1000000 := by decide

/-- C8 amended: for P > 0, periodic rate r > 0, n ≥ 1, as long as the
internally carried balance never comes within the 1e-8 clamp threshold
before the final period, the sum of the UNROUNDED per-period principal
portions (whose 2-decimal roundings are the schedule's `Principal` fields)
equals P exactly.  The rounded fields themselves can each be off by up to
half a cent, so the claim's 1e-6 bound does not hold for the output fields;
and an early clamp (balances at the 1e-8 scale) breaks even the unrounded
identity. -/
theorem C8_amended_raw_principal_sum (principal annual : ℚ) (n ppy : ℕ)
    (hP : 0 < principal) (hr : 0 < annual / (ppy : ℚ)) (hn : 1 ≤ n)
    (hclamp : ∀ k < n - 1,
      eps ≤ |pmtBalance (annual / (ppy : ℚ)) (enginePmt principal annual n ppy) principal k
              * (1 + annual / (ppy : ℚ)) - enginePmt principal annual n ppy|) :
    rawPrincipalSum (annual / (ppy : ℚ)) (enginePmt principal annual n ppy) principal n
      = principal := by
  obtain ⟨m, rfl⟩ : ∃ m, n = m + 1 := ⟨n - 1, by omega⟩
  set r := annual / (ppy : ℚ) with hr_def
  set pmt := enginePmt principal annual (m + 1) ppy with hpmt_def
  have hq1 : 1 < 1 + r := by linarith
  have hqn : 1 < (1 + r) ^ (m + 1) := one_lt_pow₀ hq1 (Nat.succ_ne_zero m)
  have hqnz : (1 + r) ^ (m + 1) ≠ 0 := by positivity
  have hD : (1 + r) ^ (m + 1) - 1 ≠ 0 := sub_ne_zero.mpr (ne_of_gt hqn)
  have hpmt : pmt = principal * r * (1 + r) ^ (m + 1) / ((1 + r) ^ (m + 1) - 1) := by
    rw [hpmt_def]
    simp only [enginePmt, ← hr_def]
    rw [if_neg (ne_of_gt hr), zpow_neg, zpow_natCast]
    rw [eq_div_iff hD]
    field_simp
  have cf : ∀ k, k ≤ m → pmtBalance r pmt principal k
      = principal * ((1 + r) ^ (m + 1) - (1 + r) ^ k) / ((1 + r) ^ (m + 1) - 1) := by
    intro k
    induction k with
    | zero =>
      intro _
      simp only [pmtBalance, pow_zero]
      rw [eq_div_iff hD]
    | succ j ih =>
      intro hj
      have hbj := ih (by omega)
      have hcl := hclamp j (by omega)
      rw [pmtBalance, pmtNextBalance, clampBalance, if_neg]
      · rw [hbj, hpmt, eq_div_iff hD]
        field_simp
        ring
      · rw [not_lt]
        calc eps ≤ |pmtBalance r pmt principal j * (1 + r) - pmt| := hcl
          _ = |pmtBalance r pmt principal j - (pmt - pmtBalance r pmt principal j * r)| := by
              congr 1; ring
  unfold rawPrincipalSum
  have hsummand : ∀ k ∈ Finset.range (m + 1),
      pmt - pmtBalance r pmt principal k * r
        = principal * r / ((1 + r) ^ (m + 1) - 1) * (1 + r) ^ k := by
    intro k hk
    rw [cf k (Nat.lt_succ_iff.mp (Finset.mem_range.mp hk)), hpmt]
    field_simp
    ring
  rw [Finset.sum_congr rfl hsummand, ← Finset.mul_sum, geom_sum_eq (ne_of_gt hq1)]
  have hq1r : 1 + r - 1 = r := by ring
  rw [hq1r]
  field_simp

/-- Witness for the amended C8 at principal 1000, annual rate 1.2, 2
periods, monthly: no balance nears the clamp threshold and the unrounded
principal portions sum to exactly 1000. -/
theorem C8_amended_raw_principal_sum_witness :
    0 < (1000 : ℚ) ∧ 0 < (12/10 : ℚ) / ((12 : ℕ) : ℚ) ∧ 1 ≤ 2 ∧
    (∀ k < 2 - 1,
      eps ≤ |pmtBalance ((12/10 : ℚ) / ((12 : ℕ) : ℚ)) (enginePmt 1000 (12/10) 2 12) 1000 k
              * (1 + (12/10 : ℚ) / ((12 : ℕ) : ℚ)) - enginePmt 1000 (12/10) 2 12|) ∧
    rawPrincipalSum ((12/10 : ℚ) / ((12 : ℕ) : ℚ)) (enginePmt 1000 (12/10) 2 12) 1000 2
      = 1000 :=
  ⟨by norm_num, by norm_num, by norm_num, by decide,
   C8_amended_raw_principal_sum 1000 (12/10) 2 12 (by norm_num) (by norm_num)
     (by norm_num) (by decide)⟩

/-! ### Helper lemmas about the issuance loop -/

lemma issueLoop_spec_of_fuel (principal : ℚ) (pol : ℕ → ℕ → ℕ → Bool) (period : ℕ) :
    ∀ (fuel : ℕ) (loans : List Loan) (issued : ℕ) (ytd : ℚ),
      ytd < principal * ((fuel : ℚ) + 1) →
      issueLoopSpec principal pol period loans issued ytd
        (issueLoop principal pol period fuel loans issued ytd) := by
  intro fuel
  induction fuel with
  | zero =>
    intro loans issued ytd hlt
    refine ⟨0, by simp [issueLoop], by simp [issueLoop], by simp [issueLoop], ?_, ?_⟩
    · intro j hj; exact absurd hj (Nat.not_lt_zero j)
    · left
      show (issueLoop principal pol period 0 loans issued ytd).2.2 < principal
      simp only [issueLoop]
      push_cast at hlt
      linarith
  | succ f ih =>
    intro loans issued ytd hlt
    by_cases hy : principal ≤ ytd
    · by_cases hpol : pol period issued loans.length = true
      · have hstep : issueLoop principal pol period (f + 1) loans issued ytd
            = issueLoop principal pol period f
                (loans ++ [{ start_period := period, remaining_balance := principal }])
                (issued + 1) (ytd - principal) := by
          simp [issueLoop, hy, hpol]
        have hrec := ih (loans ++ [{ start_period := period, remaining_balance := principal }])
          (issued + 1) (ytd - principal) (by push_cast at hlt ⊢; linarith)
        obtain ⟨k, h1, h2, h3, h4, h5⟩ := hrec
        refine ⟨k + 1, ?_, ?_, ?_, ?_, ?_⟩
        · rw [hstep, h1]
          simp [List.replicate_succ]
        · rw [hstep, h2]; omega
        · rw [hstep, h3]; push_cast; ring
        · intro j hj
          cases j with
          | zero =>
            constructor
            · simpa using hy
            · simpa using hpol
          | succ i =>
            have hi := h4 i (by omega)
            constructor
            · have := hi.1
              push_cast at this ⊢
              linarith
            · have := hi.2
              have e1 : issued + 1 + i = issued + (i + 1) := by omega
              have e2 : (loans ++
                  [({ start_period := period, remaining_balance := principal } : Loan)]).length
                    + i = loans.length + (i + 1) := by
                simp [List.length_append]; omega
              rwa [e1, e2] at this
        · rw [hstep]; exact h5
      · have hstep : issueLoop principal pol period (f + 1) loans issued ytd
            = (loans, issued, ytd) := by
          simp [issueLoop, hy, hpol]
        refine ⟨0, by simp [hstep], by simp [hstep], by simp [hstep], ?_, ?_⟩
        · intro j hj; exact absurd hj (Nat.not_lt_zero j)
        · right
          rw [hstep]
          simpa using hpol
    · have hstep : issueLoop principal pol period (f + 1) loans issued ytd
          = (loans, issued, ytd) := by
        simp [issueLoop, hy]
      refine ⟨0, by simp [hstep], by simp [hstep], by simp [hstep], ?_, ?_⟩
      · intro j hj; exact absurd hj (Nat.not_lt_zero j)
      · left
        rw [hstep]
        simpa using lt_of_not_le hy

lemma ytd_lt_issueFuel_bound (principal ytd : ℚ) (hp : 0 < principal) :
    ytd < principal * ((issueFuel principal ytd : ℚ) + 1) := by
  unfold issueFuel
  have h1 : ytd / principal < (⌊ytd / principal⌋ : ℚ) + 1 := Int.lt_floor_add_one _
  have h2 : ((⌊ytd / principal⌋ : ℤ) : ℚ) ≤ ((⌊ytd / principal⌋.toNat : ℕ) : ℚ) := by
    exact_mod_cast Int.self_le_toNat _
  have h3 : ytd / principal < ((⌊ytd / principal⌋.toNat : ℕ) : ℚ) + 1 := by linarith
  have h4 : ytd < (((⌊ytd / principal⌋.toNat : ℕ) : ℚ) + 1) * principal :=
    (div_lt_iff₀ hp).mp h3
  have h5 : principal * ((((⌊ytd / principal⌋.toNat : ℕ) : ℚ) + 1) + 1)
      = (((⌊ytd / principal⌋.toNat : ℕ) : ℚ) + 1) * principal + principal := by ring
  push_cast
  linarith

lemma issueLoopTerm_of_fuel (principal : ℚ) (pol : ℕ → ℕ → ℕ → Bool) (period : ℕ) :
    ∀ (fuel : ℕ) (loans : List Loan) (issued : ℕ) (ytd : ℚ),
      ytd < principal * ((fuel : ℚ) + 1) →
      IssueLoopTerm principal pol period loans issued ytd
        (issueLoop principal pol period fuel loans issued ytd) := by
  intro fuel
  induction fuel with
  | zero =>
    intro loans issued ytd hlt
    have hy : ¬ principal ≤ ytd := by
      push_cast at hlt
      intro h
      linarith
    exact IssueLoopTerm.stop_low loans issued ytd hy
  | succ f ih =>
    intro loans issued ytd hlt
    by_cases hy : principal ≤ ytd
    · by_cases hpol : pol period issued loans.length = true
      · have hstep : issueLoop principal pol period (f + 1) loans issued ytd
            = issueLoop principal pol period f
                (loans ++ [{ start_period := period, remaining_balance := principal }])
                (issued + 1) (ytd - principal) := by
          simp [issueLoop, hy, hpol]
        rw [hstep]
        exact IssueLoopTerm.step loans issued ytd _ hy hpol
          (ih _ _ _ (by push_cast at hlt ⊢; linarith))
      · have hstep : issueLoop principal pol period (f + 1) loans issued ytd
            = (loans, issued, ytd) := by
          simp [issueLoop, hy, hpol]
        rw [hstep]
        exact IssueLoopTerm.stop_decline loans issued ytd hy (by simpa using hpol)
    · have hstep : issueLoop principal pol period (f + 1) loans issued ytd
          = (loans, issued, ytd) := by
        simp [issueLoop, hy]
      rw [hstep]
      exact IssueLoopTerm.stop_low loans issued ytd hy

/-- For a positive principal, the fuel-bounded `issueLoopRun` computes a
terminating run of the source's unbounded issuance while-loop — the fuel
truncation is invisible there. -/
lemma issueLoopRun_terminates (principal : ℚ) (pol : ℕ → ℕ → ℕ → Bool) (period : ℕ)
    (loans : List Loan) (issued : ℕ) (ytd : ℚ) (hp : 0 < principal) :
    IssueLoopTerm principal pol period loans issued ytd
      (issueLoopRun principal pol period loans issued ytd) :=
  issueLoopTerm_of_fuel principal pol period (issueFuel principal ytd) loans issued ytd
    (ytd_lt_issueFuel_bound principal ytd hp)

/-- The unbounded issuance loop is deterministic: a state has at most one
result, so `issueLoopRun` computes THE result wherever one exists. -/
lemma issueLoopTerm_det (principal : ℚ) (pol : ℕ → ℕ → ℕ → Bool) (period : ℕ) :
    ∀ (loans : List Loan) (issued : ℕ) (ytd : ℚ) (res res' : List Loan × ℕ × ℚ),
      IssueLoopTerm principal pol period loans issued ytd res →
      IssueLoopTerm principal pol period loans issued ytd res' → res = res' := by
  intro loans issued ytd res res' h1
  induction h1 with
  | stop_low loans issued ytd hlt =>
    intro h2
    cases h2 with
    | stop_low _ _ _ _ => rfl
    | stop_decline _ _ _ hy _ => exact absurd hy hlt
    | step _ _ _ _ hy _ _ => exact absurd hy hlt
  | stop_decline loans issued ytd hy hdecl =>
    intro h2
    cases h2 with
    | stop_low _ _ _ hlt => exact absurd hy hlt
    | stop_decline _ _ _ _ _ => rfl
    | step _ _ _ _ _ hperm _ =>
      rw [hperm] at hdecl
      exact absurd hdecl (by simp)
  | step loans issued ytd res hy hperm hrec ih =>
    intro h2
    cases h2 with
    | stop_low _ _ _ hlt => exact absurd hy hlt
    | stop_decline _ _ _ _ hdecl =>
      rw [hperm] at hdecl
      exact absurd hdecl (by simp)
    | step _ _ _ _ _ _ hrec2 => exact ih hrec2

/-- For a non-positive principal, once the guard `ytd >= principal` holds it
holds forever (subtracting a non-positive principal never shrinks the
accumulator), so under a policy that never declines the source's issuance
while-loop has no result: it runs forever. -/
lemma issueLoop_no_result_of_nonpos (principal : ℚ) (pol : ℕ → ℕ → ℕ → Bool)
    (period : ℕ) (hp : principal ≤ 0) :
    ∀ (loans : List Loan) (issued : ℕ) (ytd : ℚ) (res : List Loan × ℕ × ℚ),
      IssueLoopTerm principal pol period loans issued ytd res →
      principal ≤ ytd →
      (∀ j, pol period (issued + j) (loans.length + j) = true) → False := by
  intro loans issued ytd res h
  induction h with
  | stop_low loans issued ytd hlt =>
    intro hy _
    exact hlt hy
  | stop_decline loans issued ytd hy hdecl =>
    intro _ hperm
    have h0 := hperm 0
    simp only [Nat.add_zero] at h0
    rw [h0] at hdecl
    exact absurd hdecl (by simp)
  | step loans issued ytd res hy hperm hrec ih =>
    intro _ hperm2
    apply ih
    · linarith
    · intro j
      have hj := hperm2 (j + 1)
      have e1 : issued + 1 + j = issued + (j + 1) := by omega
      have e2 : (loans ++
          [({ start_period := period, remaining_balance := principal } : Loan)]).length + j
            = loans.length + (j + 1) := by
        simp [List.length_append]
        omega
      rw [e1, e2]
      exact hj

/-- C2: one period's issuance loop issues some number `k` of new loans
`⟨current period, principal⟩` (appended in order), increments the counter by
`k`, subtracts `k · principal` from the accumulator, consults the policy
afresh before every one of the `k` issuances — passing the current period,
the total issued so far and the current active-loan count — and halts
exactly when the accumulator drops below one principal or the policy
declines; the loop runs after the period totals were accumulated, on the
post-servicing survivors and the updated cash accumulator, and yields the
next state's loan list, counter and accumulator; and the default policy
(installed when the caller supplies none) is always-true without a
`max_loans` cap, and `total_issued < max_loans` with one. -/
theorem C2_issuance_loop (r pmt_single principal : ℚ) (pol : ℕ → ℕ → ℕ → Bool)
    (period : ℕ) (loans : List Loan) (issued : ℕ) (ytd : ℚ) (st : RollState)
    (hp : 0 < principal) :
    issueLoopSpec principal pol period loans issued ytd
      (issueLoopRun principal pol period loans issued ytd) ∧
    ((rollStep r pmt_single principal pol period st).1.active_loans
        = (issueLoopRun principal pol period
            (servicePeriod r pmt_single period st.active_loans).survivors
            st.total_loans_issued
            (st.ytd_payment_received +
              (servicePeriod r pmt_single period st.active_loans).period_payment)).1 ∧
      (rollStep r pmt_single principal pol period st).1.total_loans_issued
        = (issueLoopRun principal pol period
            (servicePeriod r pmt_single period st.active_loans).survivors
            st.total_loans_issued
            (st.ytd_payment_received +
              (servicePeriod r pmt_single period st.active_loans).period_payment)).2.1 ∧
      (rollStep r pmt_single principal pol period st).1.ytd_payment_received
        = (issueLoopRun principal pol period
            (servicePeriod r pmt_single period st.active_loans).survivors
            st.total_loans_issued
            (st.ytd_payment_received +
              (servicePeriod r pmt_single period st.active_loans).period_payment)).2.2) ∧
    (∀ p i c, defaultShouldIssue none p i c = true) ∧
    (∀ m p i c, defaultShouldIssue (some m) p i c = decide (i < m)) := by
  refine ⟨?_, ⟨rfl, rfl, rfl⟩, fun _ _ _ => rfl, fun _ _ _ _ => rfl⟩
  exact issueLoop_spec_of_fuel principal pol period (issueFuel principal ytd)
    loans issued ytd (ytd_lt_issueFuel_bound principal ytd hp)

/-- Witness for C2: principal 1, always-true policy, accumulator 2.5 — the
loop issues twice and stops with 0.5 left. -/
theorem C2_issuance_loop_witness :
    0 < (1 : ℚ) ∧
    issueLoopSpec 1 (fun _ _ _ => true) 3 [] 1 (5/2)
      (issueLoopRun 1 (fun _ _ _ => true) 3 [] 1 (5/2)) :=
  ⟨by norm_num,
   (C2_issuance_loop 1 (4/3) 1 (fun _ _ _ => true) 3 [] 1 (5/2) (initRollState 1)
     (by norm_num)).1⟩

/-! ### Helper lemmas about the rolling state -/

lemma serviceLoan_start (r pmt_single : ℚ) (period : ℕ) (loan : Loan) :
    (serviceLoan r pmt_single period loan).loan.start_period = loan.start_period := by
  unfold serviceLoan
  split
  · dsimp only
    split <;> rfl
  · rfl

lemma mem_servicePeriod_survivors (r pmt_single : ℚ) (period : ℕ) :
    ∀ (loans : List Loan) (l : Loan),
      l ∈ (servicePeriod r pmt_single period loans).survivors →
      ∃ l0 ∈ loans, l = (serviceLoan r pmt_single period l0).loan ∧
        fullyPaid r pmt_single period l0 = false := by
  intro loans
  induction loans with
  | nil => intro l h; simp [servicePeriod] at h
  | cons a t ih =>
    intro l h
    simp only [servicePeriod, List.mem_append] at h
    cases h with
    | inl h1 =>
      by_cases hf : fullyPaid r pmt_single period a
      · simp [hf] at h1
      · simp [hf] at h1
        exact ⟨a, List.mem_cons_self a t, h1, by simpa using hf⟩
    | inr h2 =>
      obtain ⟨l0, hl0, he, hfp⟩ := ih l h2
      exact ⟨l0, List.mem_cons_of_mem a hl0, he, hfp⟩

lemma mem_issueLoop (principal : ℚ) (pol : ℕ → ℕ → ℕ → Bool) (period : ℕ) :
    ∀ (fuel : ℕ) (loans : List Loan) (issued : ℕ) (ytd : ℚ) (l : Loan),
      l ∈ (issueLoop principal pol period fuel loans issued ytd).1 →
      l ∈ loans ∨ l = { start_period := period, remaining_balance := principal } := by
  intro fuel
  induction fuel with
  | zero =>
    intro loans issued ytd l h
    simp only [issueLoop] at h
    exact Or.inl h
  | succ f ih =>
    intro loans issued ytd l h
    by_cases hy : principal ≤ ytd
    · by_cases hpol : pol period issued loans.length = true
      · simp only [issueLoop, if_pos hy, hpol, if_pos] at h
        rcases ih _ _ _ l h with hmem | hnew
        · rcases List.mem_append.mp hmem with h1 | h2
          · exact Or.inl h1
          · simp at h2
            exact Or.inr h2
        · exact Or.inr hnew
      · simp only [issueLoop, if_pos hy, hpol] at h
        simp at h
        exact Or.inl h
    · simp only [issueLoop, if_neg hy] at h
      exact Or.inl h

lemma issueLoop_issued_le (principal : ℚ) (pol : ℕ → ℕ → ℕ → Bool) (period : ℕ) :
    ∀ (fuel : ℕ) (loans : List Loan) (issued : ℕ) (ytd : ℚ),
      issued ≤ (issueLoop principal pol period fuel loans issued ytd).2.1 := by
  intro fuel
  induction fuel with
  | zero => intro loans issued ytd; simp [issueLoop]
  | succ f ih =>
    intro loans issued ytd
    by_cases hy : principal ≤ ytd
    · by_cases hpol : pol period issued loans.length = true
      · simp only [issueLoop, if_pos hy, hpol, if_pos]
        calc issued ≤ issued + 1 := Nat.le_succ issued
          _ ≤ _ := ih _ _ _
      · simp [issueLoop, hy, hpol]
    · simp [issueLoop, hy]

lemma roll_start_le (r pmt_single principal : ℚ) (pol : ℕ → ℕ → ℕ → Bool) :
    ∀ k, ∀ l ∈ (rollStateAfter r pmt_single principal pol k).active_loans,
      1 ≤ l.start_period ∧ l.start_period ≤ max 1 k := by
  intro k
  induction k with
  | zero =>
    intro l hl
    simp only [rollStateAfter, initRollState, List.mem_singleton] at hl
    subst hl
    simp
  | succ n ih =>
    intro l hl
    have hl' : l ∈ (issueLoopRun principal pol (n + 1)
        (servicePeriod r pmt_single (n + 1)
          (rollStateAfter r pmt_single principal pol n).active_loans).survivors
        (rollStateAfter r pmt_single principal pol n).total_loans_issued
        ((rollStateAfter r pmt_single principal pol n).ytd_payment_received +
          (servicePeriod r pmt_single (n + 1)
            (rollStateAfter r pmt_single principal pol n).active_loans).period_payment)).1 := hl
    rcases mem_issueLoop principal pol (n + 1) _ _ _ _ l hl' with hsurv | hnew
    · obtain ⟨l0, hl0, he, _⟩ := mem_servicePeriod_survivors r pmt_single (n + 1) _ l hsurv
      have hst := ih l0 hl0
      have : l.start_period = l0.start_period := by rw [he, serviceLoan_start]
      rw [this]
      exact ⟨hst.1, le_trans hst.2 (by omega)⟩
    · subst hnew
      exact ⟨Nat.le_add_left 1 n, le_max_right 1 (n + 1)⟩

lemma roll_bal_gt_eps (r pmt_single principal : ℚ) (pol : ℕ → ℕ → ℕ → Bool)
    (hp : eps < principal) :
    ∀ k, ∀ l ∈ (rollStateAfter r pmt_single principal pol k).active_loans,
      eps < l.remaining_balance := by
  intro k
  induction k with
  | zero =>
    intro l hl
    simp only [rollStateAfter, initRollState, List.mem_singleton] at hl
    subst hl
    exact hp
  | succ n ih =>
    intro l hl
    rcases mem_issueLoop principal pol (n + 1) _ _ _ _ l hl with hsurv | hnew
    · obtain ⟨l0, hl0, he, hfp⟩ := mem_servicePeriod_survivors r pmt_single (n + 1) _ l hsurv
      have hb0 := ih l0 hl0
      have hage : 0 < loanAge (n + 1) l0 := by
        have hst := roll_start_le r pmt_single principal pol n l0 hl0
        have : l0.start_period ≤ n + 1 := le_trans hst.2 (by omega)
        unfold loanAge
        push_cast
        omega
      have hs : 0 < l0.remaining_balance ∧ 0 < loanAge (n + 1) l0 :=
        ⟨lt_trans (by norm_num [eps]) hb0, hage⟩
      have hfp' : ¬ (serviceLoan r pmt_single (n + 1) l0).loan.remaining_balance ≤ eps := by
        simpa [fullyPaid, hs] using hfp
      rw [he]
      exact lt_of_not_le hfp'
    · subst hnew
      exact hp

/-- C3: state invariants of the rolling simulator (for a principal above the
1e-8 tolerance): every loan left in the active set after any period advance
has balance strictly above 1e-8 — so a loan whose balance falls to at most
1e-8 is removed in that same period, is never serviced again and appears in
no later aggregate; `total_loans_issued` is seeded at 1 and never decreases;
and the aggregate remaining balance (and its reported rounding) is never
negative. -/
theorem C3_state_invariants (r pmt_single principal : ℚ) (pol : ℕ → ℕ → ℕ → Bool)
    (hp : eps < principal) :
    (∀ k, ∀ l ∈ (rollStateAfter r pmt_single principal pol k).active_loans,
        eps < l.remaining_balance) ∧
    (rollStateAfter r pmt_single principal pol 0).total_loans_issued = 1 ∧
    (∀ k, (rollStateAfter r pmt_single principal pol k).total_loans_issued
        ≤ (rollStateAfter r pmt_single principal pol (k + 1)).total_loans_issued) ∧
    (∀ k, 0 ≤ (((rollStateAfter r pmt_single principal pol k).active_loans.map
          Loan.remaining_balance).sum) ∧
        0 ≤ round2 (((rollStateAfter r pmt_single principal pol k).active_loans.map
          Loan.remaining_balance).sum)) := by
  have hbal := roll_bal_gt_eps r pmt_single principal pol hp
  have hsum : ∀ k, 0 ≤ (((rollStateAfter r pmt_single principal pol k).active_loans.map
      Loan.remaining_balance).sum) := by
    intro k
    apply List.sum_nonneg
    intro x hx
    obtain ⟨l0, hl0, rfl⟩ := List.mem_map.mp hx
    have := hbal k l0 hl0
    have heps : (0 : ℚ) < eps := by norm_num [eps]
    linarith
  refine ⟨hbal, rfl, ?_, ?_⟩
  · intro k
    exact issueLoop_issued_le principal pol (k + 1) _ _ _ _
  · intro k
    refine ⟨hsum k, ?_⟩
    unfold round2
    apply div_nonneg _ (by norm_num)
    have : (0 : ℤ) ≤ round ((((rollStateAfter r pmt_single principal pol k).active_loans.map
        Loan.remaining_balance).sum) * 100) := by
      rw [round_eq]
      apply Int.le_floor.mpr
      push_cast
      have := hsum k
      linarith
    exact_mod_cast this

/-- Witness for C3 at r = 1, payment 4/3, principal 1, always-true policy. -/
theorem C3_state_invariants_witness :
    eps < (1 : ℚ) ∧
    (rollStateAfter 1 (4/3) 1 (fun _ _ _ => true) 0).total_loans_issued = 1 :=
  ⟨by norm_num [eps],
   (C3_state_invariants 1 (4/3) 1 (fun _ _ _ => true) (by norm_num [eps])).2.1⟩

/-- C9 counterexample: with principal 1, annual rate 12 (periodic rate 1),
2 periods, the default policy issues a second loan during period 1
(`start_period = 1`), but issuance happens after the servicing pass, so at
the end of period 1 that loan still carries its untouched face principal —
it made no payment in its start period (its first payment comes in period
2), refuting first-payment-at-`start_period`. -/
theorem C9_counterexample : ¬ firstPaymentAtStartClaim 1 12 2 12 none none := by
  unfold firstPaymentAtStartClaim
  decide

/-- C9 amended: the seed loan (present from inception, `start_period = 1`)
is serviced from period 1 on; every loan created by the issuance loop in
period k gets `start_period = k` but is appended after the servicing pass,
so it ends period k with its untouched face principal and its first
possible servicing is period k+1 = `start_period + 1`; no loan exists — so
none is serviced — before its `start_period`, and every active loan has
positive age in the next period (so a positive balance gets it serviced
then). -/
theorem C9_amended_first_service (r pmt_single principal : ℚ)
    (pol : ℕ → ℕ → ℕ → Bool) :
    (rollStateAfter r pmt_single principal pol 0).active_loans
      = [{ start_period := 1, remaining_balance := principal }] ∧
    (∀ k, ∀ l ∈ (rollStateAfter r pmt_single principal pol k).active_loans,
        1 ≤ l.start_period ∧ l.start_period ≤ max 1 k) ∧
    (∀ k, 2 ≤ k → ∀ l ∈ (rollStateAfter r pmt_single principal pol k).active_loans,
        l.start_period = k → l.remaining_balance = principal) ∧
    (∀ k, ∀ l ∈ (rollStateAfter r pmt_single principal pol k).active_loans,
        0 < loanAge (k + 1) l) := by
  refine ⟨rfl, roll_start_le r pmt_single principal pol, ?_, ?_⟩
  · intro k hk l hl hstart
    obtain ⟨m, rfl⟩ : ∃ m, k = m + 1 := ⟨k - 1, by omega⟩
    rcases mem_issueLoop principal pol (m + 1) _ _ _ _ l hl with hsurv | hnew
    · exfalso
      obtain ⟨l0, hl0, he, _⟩ := mem_servicePeriod_survivors r pmt_single (m + 1) _ l hsurv
      have hst := roll_start_le r pmt_single principal pol m l0 hl0
      have : l.start_period = l0.start_period := by rw [he, serviceLoan_start]
      omega
    · subst hnew
      rfl
  · intro k l hl
    have hst := roll_start_le r pmt_single principal pol k l hl
    have : l.start_period ≤ k + 1 := le_trans hst.2 (by omega)
    unfold loanAge
    push_cast
    omega

/-- Witness for the amended C9: in the r = 1 run, the loan issued in period
2 still carries its full principal at the end of period 2. -/
theorem C9_amended_first_service_witness :
    2 ≤ 2 ∧
    ({ start_period := 2, remaining_balance := 1 } : Loan) ∈
      (rollStateAfter 1 (4/3) 1 (fun _ _ _ => true) 2).active_loans ∧
    ({ start_period := 2, remaining_balance := 1 } : Loan).remaining_balance = 1 :=
  ⟨by norm_num, by decide,
   (C9_amended_first_service 1 (4/3) 1 (fun _ _ _ => true)).2.2.1 2 (by norm_num)
     { start_period := 2, remaining_balance := 1 } (by decide) rfl⟩

/-- C7 counterexample: at principal 0.01, annual rate 1.2, 3 periods, every
period's payment total ≈ 0.00402 rounds to 0.00 in the returned records, so
the sum of the returned period-payment totals is 0 while the cumulative
payment accumulator holds ≈ 0.01206 (reported as 0.01) — the accumulator
runs over unrounded totals, the records return rounded ones. -/
theorem C7_counterexample :
    ¬ ((rollStateAfter ((12/10 : ℚ) / 12) (rollingPmtSingle (1/100) (12/10) 3 12) (1/100)
          (defaultShouldIssue none) 3).cumulative_payment_received
        = (((generate_rolling_loans_schedule (1/100) (12/10) 3 12 none none).map
            RollingEntry.paymentReceived)).sum) ∧
    ¬ (round2 ((rollStateAfter ((12/10 : ℚ) / 12) (rollingPmtSingle (1/100) (12/10) 3 12) (1/100)
          (defaultShouldIssue none) 3).cumulative_payment_received)
        = (((generate_rolling_loans_schedule (1/100) (12/10) 3 12 none none).map
            RollingEntry.paymentReceived)).sum) := by
  constructor
  · decide
  · decide

/-- C7 amended: the cumulative payment accumulator after k periods equals
the sum of the k UNROUNDED period-payment totals; each returned record's
`Payment Received` is the 2-decimal rounding of that period's unrounded
total, and its `YTD Payment Received` is the 2-decimal rounding of the
accumulator. -/
theorem C7_amended_cumulative_payment (r pmt_single principal : ℚ)
    (pol : ℕ → ℕ → ℕ → Bool) :
    (∀ k, (rollStateAfter r pmt_single principal pol k).cumulative_payment_received
        = ∑ j ∈ Finset.range k, (periodTotalsAt r pmt_single principal pol j).period_payment) ∧
    (∀ j, (rollEntryAt r pmt_single principal pol j).paymentReceived
        = round2 (periodTotalsAt r pmt_single principal pol j).period_payment) ∧
    (∀ j, (rollEntryAt r pmt_single principal pol j).ytdPaymentReceived
        = round2 ((rollStateAfter r pmt_single principal pol (j + 1)).cumulative_payment_received)) := by
  refine ⟨?_, fun j => rfl, fun j => rfl⟩
  intro k
  induction k with
  | zero => simp [rollStateAfter, initRollState]
  | succ n ih =>
    have hstep : (rollStateAfter r pmt_single principal pol (n + 1)).cumulative_payment_received
        = (rollStateAfter r pmt_single principal pol n).cumulative_payment_received
          + (periodTotalsAt r pmt_single principal pol n).period_payment := rfl
    rw [hstep, ih, Finset.sum_range_succ]

/-- C6 counterexample: the rolling simulator performs no initialization
validation: called with the invalid principal −5 (and a cap that stops the
issuance loop, as an always-true policy would spin forever on a non-positive
principal in the source), it returns a schedule instead of failing fast
with a precondition error. -/
theorem C6_counterexample :
    resultIsOk (generate_rolling_loans_scheduleE (-5) (12/10) 2 12 (some 1) none) = true := by
  decide

/-- C6 amended: passing n = 0 periods makes the payment computation raise
`ZeroDivisionError` at the division site (so no NaN/Inf propagates, but it
is not an InvalidArgument-style precondition check); the rolling simulator
validates nothing at initialization — invalid combinations such as a
negative principal are silently accepted (see `C6_counterexample`) with no
fail-fast error; for a positive principal (with nonzero period counts and
non-negative rate) every period advance is total arithmetic and the run
returns a schedule without failing; but for a non-positive principal under
a policy that never declines, the issuance while-loop has no result — the
source hangs rather than failing — so advancement is not failure-free on
the invalid inputs the claim says are rejected. -/
theorem C6_amended_error_handling :
    (∀ (principal annual : ℚ) (ppy : ℕ), (ppy : ℚ) ≠ 0 →
        generate_pmt_scheduleE principal annual 0 ppy = .error .zeroDivisionError) ∧
    (∀ (principal annual : ℚ) (n ppy : ℕ) (mL : Option ℕ)
        (polO : Option (ℕ → ℕ → ℕ → Bool)), (ppy : ℚ) ≠ 0 → n ≠ 0 →
        0 ≤ annual / (ppy : ℚ) → 0 < principal →
        generate_rolling_loans_scheduleE principal annual n ppy mL polO
          = .ok (generate_rolling_loans_schedule principal annual n ppy mL polO)) ∧
    (∀ (principal : ℚ) (pol : ℕ → ℕ → ℕ → Bool) (period : ℕ) (loans : List Loan)
        (issued : ℕ) (ytd : ℚ), principal ≤ 0 → principal ≤ ytd →
        (∀ j, pol period (issued + j) (loans.length + j) = true) →
        ∀ res, ¬ IssueLoopTerm principal pol period loans issued ytd res) := by
  refine ⟨?_, ?_, ?_⟩
  · intro principal annual ppy hppy
    have hfail : pmtDivisionFails principal annual 0 ppy = true := by
      unfold pmtDivisionFails
      rw [if_neg hppy]
      by_cases hr : annual / (ppy : ℚ) = 0
      · simp [hr]
      · simp [hr]
    simp [generate_pmt_scheduleE, hfail]
  · intro principal annual n ppy mL polO hppy hn hr hpos
    have hok : pmtDivisionFails principal annual n ppy = false := by
      unfold pmtDivisionFails
      rw [if_neg hppy]
      by_cases h0 : annual / (ppy : ℚ) = 0
      · simp [h0, hn]
      · have hrpos : 0 < annual / (ppy : ℚ) := lt_of_le_of_ne hr (Ne.symm h0)
        have h1r : (1 : ℚ) < 1 + annual / (ppy : ℚ) := by linarith
        have hq : 1 < (1 + annual / (ppy : ℚ)) ^ n := one_lt_pow₀ h1r hn
        have hne : (1 : ℚ) - ((1 + annual / (ppy : ℚ)) ^ n)⁻¹ ≠ 0 := by
          intro hcontra
          have hinv : ((1 + annual / (ppy : ℚ)) ^ n)⁻¹ = 1 := by linarith
          have := inv_eq_one.mp hinv
          linarith
        have hplus : (1 : ℚ) + annual / (ppy : ℚ) ≠ 0 := by linarith
        simp [h0, hplus, zpow_neg, zpow_natCast, hne]
    simp [generate_rolling_loans_scheduleE, hok]
  · intro principal pol period loans issued ytd hp hy hperm res hterm
    exact issueLoop_no_result_of_nonpos principal pol period hp
      loans issued ytd res hterm hy hperm

/-- Witness for the amended C6, exercising both regimes: the valid principal
30000 yields a schedule without failing, and with principal −5, the default
uncapped (always-true) policy and the accumulator at 0 the issuance loop
provably has no result. -/
theorem C6_amended_error_handling_witness :
    ((12 : ℕ) : ℚ) ≠ 0 ∧ (2 : ℕ) ≠ 0 ∧ 0 ≤ (12/10 : ℚ) / ((12 : ℕ) : ℚ) ∧
    0 < (30000 : ℚ) ∧
    generate_rolling_loans_scheduleE 30000 (12/10) 2 12 none none
      = .ok (generate_rolling_loans_schedule 30000 (12/10) 2 12 none none) ∧
    ((-5 : ℚ) ≤ 0 ∧ (-5 : ℚ) ≤ 0 ∧
      ∀ res, ¬ IssueLoopTerm (-5) (defaultShouldIssue none) 1
        [{ start_period := 1, remaining_balance := -5 }] 1 0 res) :=
  ⟨by norm_num, by norm_num, by norm_num, by norm_num,
   C6_amended_error_handling.2.1 30000 (12/10) 2 12 none none
     (by norm_num) (by norm_num) (by norm_num) (by norm_num),
   by norm_num, by norm_num,
   C6_amended_error_handling.2.2 (-5) (defaultShouldIssue none) 1
     [{ start_period := 1, remaining_balance := -5 }] 1 0
     (by norm_num) (by norm_num) (fun j => rfl)⟩

end RoiCalc
